import Mathlib

/-!
Verification of the licensing lifecycle and authorization-chain subsystem of the
imi-backend service, as a shallow embedding of the Go source
(internal/services/license_service.go, product_service.go,
authorization_service.go, blockchain_service.go and internal/models).

Modelling conventions:
* uuids are modelled as naturals; timestamps as naturals.
* monetary values are modelled as exact rationals, the arithmetic the design
  mandates ("exact decimal, never floating binary"); the Go source actually
  computes them in float64 and stores amount/platform_fee in decimal(10,2)
  columns but the shares raw in JSONB, so the embedding is faithful to the
  control flow and the algebraic structure of the money computations, not to
  their binary rounding.
* each relational table is a list of records; gorm First is List.find?,
  Count is a filter length, and row updates map over the list by primary key,
  mirroring an SQL UPDATE ... WHERE id = ?.
* fallible service methods return Except SvcError; error constructors are named
  after the Go error messages they translate.
-/

namespace IMI

inductive UserType
  | creator
  | secondaryCreator
  | buyer
  | admin
  deriving DecidableEq, Repr

inductive UserStatus
  | active
  | suspended
  | banned
  deriving DecidableEq, Repr

inductive VerificationStatus
  | pending
  | approved
  | rejected
  deriving DecidableEq, Repr

inductive ApplicationStatus
  | pending
  | approved
  | rejected
  | revoked
  deriving DecidableEq, Repr

inductive ProductStatus
  | draft
  | active
  | soldOut
  | suspended
  deriving DecidableEq, Repr

inductive TransactionStatus
  | pending
  | completed
  | failed
  | refunded
  deriving DecidableEq, Repr

structure User where
  id : Nat
  userType : UserType
  status : UserStatus
  deriving DecidableEq, Repr

structure IPAsset where
  id : Nat
  creatorId : Nat
  verificationStatus : VerificationStatus
  deriving DecidableEq, Repr

structure LicenseTerms where
  id : Nat
  ipAssetId : Nat
  revenueSharePercentage : ℚ
  autoApprove : Bool
  maxLicenses : Int
  isActive : Bool
  deriving DecidableEq, Repr

structure LicenseApplication where
  id : Nat
  ipAssetId : Nat
  applicantId : Nat
  licenseTermsId : Nat
  status : ApplicationStatus
  approvedAt : Option Nat
  approvedBy : Option Nat
  rejectionReason : Option String
  expiresAt : Option Nat
  isActive : Bool
  deriving DecidableEq, Repr

structure Product where
  id : Nat
  creatorId : Nat
  licenseId : Nat
  price : ℚ
  inventoryCount : Int
  status : ProductStatus
  salesCount : Int
  deriving DecidableEq, Repr

/-- The structured revenue_shares payload built by
ProductService.calculateRevenueShares. -/
structure RevenueShares where
  totalAmount : ℚ
  platformFee : ℚ
  netAmount : ℚ
  ipCreatorShare : ℚ
  secondaryCreatorShare : ℚ
  ipCreatorId : Nat
  secondaryCreatorId : Nat
  revenueSharePercent : ℚ
  deriving DecidableEq, Repr

structure Transaction where
  id : Nat
  buyerId : Nat
  sellerId : Nat
  productId : Option Nat
  amount : ℚ
  platformFee : ℚ
  revenueShares : RevenueShares
  status : TransactionStatus
  processedAt : Option Nat
  deriving DecidableEq, Repr

structure AuthorizationChain where
  id : Nat
  productId : Nat
  ipAssetId : Nat
  licenseId : Nat
  blockchainHash : String
  verificationCode : String
  isActive : Bool
  deriving DecidableEq, Repr

/-- The shared relational store consumed by the services. -/
structure DBState where
  users : List User
  ipAssets : List IPAsset
  licenseTerms : List LicenseTerms
  applications : List LicenseApplication
  products : List Product
  transactions : List Transaction
  authChains : List AuthorizationChain
  deriving DecidableEq, Repr

/-- Service errors, one constructor per distinct Go error return. -/
inductive SvcError
  | validationFailed
  | applicantNotFound
  | applicantNotActive
  | ineligibleApplicantType
  | ipAssetNotFound
  | ipAssetNotApprovedForLicensing
  | cannotLicenseOwnAsset
  | licenseTermsNotFoundOrInactive
  | alreadyApprovedForAsset
  | alreadyPendingForAsset
  | licenseLimitReachedForTerms
  | applicationNotFound
  | unauthorizedApprover
  | alreadyProcessed
  | licenseLimitReached
  | unauthorizedRejecter
  | unauthorizedRevoker
  | onlyApprovedRevocable
  | activeProductsExist
  | productNotFound
  | productNotAvailable
  | insufficientInventory
  | buyerNotFound
  | buyerNotActive
  | licenseNotFound
  | licenseNotActive
  | licenseExpired
  | invalidVerificationCode
  | chainVerificationFailed
  | chainNotFound
  | noBlockchainHash
  | chainNotActive
  | chainAssetNotApproved
  | chainLicenseNotApproved
  deriving DecidableEq, Repr

/-! ### Table lookups (gorm First / Where ... First / Count) -/

def findUser (s : DBState) (id : Nat) : Option User :=
  s.users.find? (fun u => u.id == id)

def findIPAsset (s : DBState) (id : Nat) : Option IPAsset :=
  s.ipAssets.find? (fun a => a.id == id)

/-- Lookup used by ApplyForLicense: id = ? AND ip_asset_id = ? AND is_active = true. -/
def findLicenseTerms (s : DBState) (id ipAssetId : Nat) : Option LicenseTerms :=
  s.licenseTerms.find? (fun t => t.id == id && t.ipAssetId == ipAssetId && t.isActive)

def findLicenseTermsById (s : DBState) (id : Nat) : Option LicenseTerms :=
  s.licenseTerms.find? (fun t => t.id == id)

def findApplication (s : DBState) (id : Nat) : Option LicenseApplication :=
  s.applications.find? (fun a => a.id == id)

def findProduct (s : DBState) (id : Nat) : Option Product :=
  s.products.find? (fun p => p.id == id)

/-- Lookup used by VerifyProductByCode: verification_code = ? AND is_active = true. -/
def findChainByCode (s : DBState) (code : String) : Option AuthorizationChain :=
  s.authChains.find? (fun c => c.verificationCode == code && c.isActive)

def findChainById (s : DBState) (id : Nat) : Option AuthorizationChain :=
  s.authChains.find? (fun c => c.id == id)

/-- The duplicate-application predicate of ApplyForLicense:
ip_asset_id = ? AND applicant_id = ? AND status IN (pending, approved). -/
def isOpenFor (ipAssetId applicantId : Nat) (a : LicenseApplication) : Bool :=
  a.ipAssetId == ipAssetId && a.applicantId == applicantId &&
    (a.status == ApplicationStatus.pending || a.status == ApplicationStatus.approved)

def findExistingApplication (s : DBState) (ipAssetId applicantId : Nat) :
    Option LicenseApplication :=
  s.applications.find? (isOpenFor ipAssetId applicantId)

/-- Count in ApplyForLicense: license_terms_id = ? AND status = approved. -/
def approvedCount (s : DBState) (licenseTermsId : Nat) : Nat :=
  s.applications.countP
    (fun a => a.licenseTermsId == licenseTermsId && a.status == ApplicationStatus.approved)

/-- Count in ApproveLicense: license_terms_id = ? AND status = approved AND id != ?. -/
def approvedCountExcluding (s : DBState) (licenseTermsId applicationId : Nat) : Nat :=
  s.applications.countP
    (fun a => a.licenseTermsId == licenseTermsId && a.status == ApplicationStatus.approved &&
      a.id != applicationId)

/-- Count in RevokeLicense: license_id = ? AND status IN (active, draft). -/
def activeOrDraftProductCount (s : DBState) (licenseId : Nat) : Nat :=
  s.products.countP
    (fun p => p.licenseId == licenseId &&
      (p.status == ProductStatus.active || p.status == ProductStatus.draft))

/-- Primary keys are database-generated and fresh; modelled as one more than the
largest application id in the store. -/
def freshApplicationId (s : DBState) : Nat :=
  (s.applications.map (fun a => a.id)).foldr max 0 + 1

def freshTransactionId (s : DBState) : Nat :=
  (s.transactions.map (fun t => t.id)).foldr max 0 + 1

/-- ApproveLicense/RejectLicense/RevokeLicense authorization: the caller is the
IP creator, or is a user of admin type. -/
def isAssetCreator (s : DBState) (ipAssetId userId : Nat) : Bool :=
  match findIPAsset s ipAssetId with
  | some a => a.creatorId == userId
  | none => false

def isAdmin (s : DBState) (userId : Nat) : Bool :=
  match findUser s userId with
  | some u => u.userType == UserType.admin
  | none => false

/-! ### LicenseService.ApplyForLicense (license_service.go) -/

def applyForLicense (s : DBState) (applicantId ipAssetId licenseTermsId now : Nat) :
    Except SvcError (LicenseApplication × DBState) :=
  match findUser s applicantId with
  | none => .error .applicantNotFound
  | some applicant =>
    if applicant.status ≠ UserStatus.active then .error .applicantNotActive
    else if applicant.userType ≠ UserType.secondaryCreator ∧
        applicant.userType ≠ UserType.creator then .error .ineligibleApplicantType
    else
      match findIPAsset s ipAssetId with
      | none => .error .ipAssetNotFound
      | some ipAsset =>
        if ipAsset.verificationStatus ≠ VerificationStatus.approved then
          .error .ipAssetNotApprovedForLicensing
        else if ipAsset.creatorId = applicantId then .error .cannotLicenseOwnAsset
        else
          match findLicenseTerms s licenseTermsId ipAssetId with
          | none => .error .licenseTermsNotFoundOrInactive
          | some terms =>
            match findExistingApplication s ipAssetId applicantId with
            | some existingApp =>
              if existingApp.status = ApplicationStatus.approved then
                .error .alreadyApprovedForAsset
              else .error .alreadyPendingForAsset
            | none =>
              if terms.maxLicenses > 0 ∧
                  (approvedCount s licenseTermsId : Int) ≥ terms.maxLicenses then
                .error .licenseLimitReachedForTerms
              else
                let application : LicenseApplication :=
                  { id := freshApplicationId s
                    ipAssetId := ipAssetId
                    applicantId := applicantId
                    licenseTermsId := licenseTermsId
                    status := if terms.autoApprove then .approved else .pending
                    approvedAt := if terms.autoApprove then some now else none
                    approvedBy := if terms.autoApprove then some ipAsset.creatorId else none
                    rejectionReason := none
                    expiresAt := none
                    isActive := true }
                .ok (application, { s with applications := s.applications ++ [application] })

/-! ### LicenseService.ApproveLicense (license_service.go)

The Go method issues the capacity count and the Save as separate database
commands with no enclosing transaction or row lock, so a concurrent execution
may interleave between the check and the write.  The check phase and the write
phase are therefore modelled as separate steps; approveLicense is the
sequential composition a single uninterleaved call performs. -/

def approveLicenseCheck (s : DBState) (applicationId approverId : Nat) :
    Except SvcError LicenseApplication :=
  match findApplication s applicationId with
  | none => .error .applicationNotFound
  | some application =>
    if ¬ isAssetCreator s application.ipAssetId approverId ∧ ¬ isAdmin s approverId then
      .error .unauthorizedApprover
    else if application.status ≠ ApplicationStatus.pending then .error .alreadyProcessed
    else
      -- a missing preloaded LicenseTerms row leaves the Go zero value, MaxLicenses = 0
      let maxL : Int :=
        ((findLicenseTermsById s application.licenseTermsId).map
          (fun t => t.maxLicenses)).getD 0
      if maxL > 0 ∧
          (approvedCountExcluding s application.licenseTermsId applicationId : Int) ≥ maxL then
        .error .licenseLimitReached
      else .ok application

def approveLicenseWrite (s : DBState) (application : LicenseApplication)
    (approverId now : Nat) : LicenseApplication × DBState :=
  let updated : LicenseApplication :=
    { application with
      status := .approved
      approvedAt := some now
      approvedBy := some approverId }
  (updated,
    { s with applications :=
        s.applications.map (fun a => if a.id = application.id then updated else a) })

def approveLicense (s : DBState) (applicationId approverId now : Nat) :
    Except SvcError (LicenseApplication × DBState) :=
  match approveLicenseCheck s applicationId approverId with
  | .error e => .error e
  | .ok application => .ok (approveLicenseWrite s application approverId now)

/-! ### LicenseService.RejectLicense and RevokeLicense -/

def rejectLicense (s : DBState) (applicationId rejecterId : Nat) (reason : String) :
    Except SvcError (LicenseApplication × DBState) :=
  match findApplication s applicationId with
  | none => .error .applicationNotFound
  | some application =>
    if ¬ isAssetCreator s application.ipAssetId rejecterId ∧ ¬ isAdmin s rejecterId then
      .error .unauthorizedRejecter
    else if application.status ≠ ApplicationStatus.pending then .error .alreadyProcessed
    else
      let updated : LicenseApplication :=
        { application with status := .rejected, rejectionReason := some reason }
      .ok (updated,
        { s with applications :=
            s.applications.map (fun a => if a.id = application.id then updated else a) })

def revokeLicense (s : DBState) (applicationId revokerId : Nat) (_reason : String) :
    Except SvcError (LicenseApplication × DBState) :=
  match findApplication s applicationId with
  | none => .error .applicationNotFound
  | some application =>
    if ¬ isAssetCreator s application.ipAssetId revokerId ∧ ¬ isAdmin s revokerId then
      .error .unauthorizedRevoker
    else if application.status ≠ ApplicationStatus.approved then .error .onlyApprovedRevocable
    else if activeOrDraftProductCount s applicationId > 0 then .error .activeProductsExist
    else
      let updated : LicenseApplication :=
        { application with status := .revoked, isActive := false }
      .ok (updated,
        { s with applications :=
            s.applications.map (fun a => if a.id = application.id then updated else a) })

/-! ### LicenseService.VerifyLicense -/

def verifyLicense (s : DBState) (licenseId now : Nat) :
    Except SvcError LicenseApplication :=
  match findApplication s licenseId with
  | none => .error .licenseNotFound
  | some license =>
    if license.status ≠ ApplicationStatus.approved ∨ license.isActive = false then
      .error .licenseNotActive
    else
      match license.expiresAt with
      | some t => if t < now then .error .licenseExpired else .ok license
      | none => .ok license

/-! ### ProductService purchase and settlement (product_service.go) -/

/-- Hardcoded in purchaseProductTransaction: platformFeePercent := 5.0. -/
def platformFeePercent : ℚ := 5

/-- ProductService.calculateRevenueShares.  The Go method reads the revenue
share percentage from product.License.LicenseTerms and the creator ids from
product.License.IPAsset and the product; the caller resolves those rows.
The Go arithmetic is float64; here it is exact rational, so results about
exact values or exact reconciliation hold of this model (the arithmetic the
spec mandates), not of the float64 program. -/
def calculateRevenueShares (totalAmount platformFee revenueSharePercent : ℚ)
    (ipCreatorId secondaryCreatorId : Nat) : RevenueShares :=
  let netAmount := totalAmount - platformFee
  let ipCreatorShare := netAmount * (revenueSharePercent / 100)
  let secondaryCreatorShare := netAmount - ipCreatorShare
  { totalAmount := totalAmount
    platformFee := platformFee
    netAmount := netAmount
    ipCreatorShare := ipCreatorShare
    secondaryCreatorShare := secondaryCreatorShare
    ipCreatorId := ipCreatorId
    secondaryCreatorId := secondaryCreatorId
    revenueSharePercent := revenueSharePercent }

/-- PurchaseProduct validation (quantity min=1) followed by
purchaseProductTransaction, which runs as one database transaction with the
product row locked FOR UPDATE: the checks, the Transaction insert and the
inventory/sales updates commit or fail as one unit.  totalAmount and
platformFee are float64 in the Go source and exact rationals here; the
control flow (status, inventory and buyer checks) compares only integers and
enum values and is unaffected. -/
def purchaseProduct (s : DBState) (productId buyerId : Nat) (quantity : Int) :
    Except SvcError (Transaction × DBState) :=
  if quantity < 1 then .error .validationFailed
  else
    match findProduct s productId with
    | none => .error .productNotFound
    | some product =>
      if product.status ≠ ProductStatus.active then .error .productNotAvailable
      else if product.inventoryCount < quantity then .error .insufficientInventory
      else
        match findUser s buyerId with
        | none => .error .buyerNotFound
        | some buyer =>
          if buyer.status ≠ UserStatus.active then .error .buyerNotActive
          else
            let totalAmount := product.price * (quantity : ℚ)
            let platformFee := totalAmount * (platformFeePercent / 100)
            -- preloaded License, License.LicenseTerms and License.IPAsset rows;
            -- a missing row leaves the Go zero value
            let license := findApplication s product.licenseId
            let revenueSharePercent : ℚ :=
              ((license.bind (fun l => findLicenseTermsById s l.licenseTermsId)).map
                (fun t => t.revenueSharePercentage)).getD 0
            let ipCreatorId : Nat :=
              ((license.bind (fun l => findIPAsset s l.ipAssetId)).map
                (fun a => a.creatorId)).getD 0
            let transaction : Transaction :=
              { id := freshTransactionId s
                buyerId := buyerId
                sellerId := product.creatorId
                productId := some productId
                amount := totalAmount
                platformFee := platformFee
                revenueShares :=
                  calculateRevenueShares totalAmount platformFee revenueSharePercent
                    ipCreatorId product.creatorId
                status := .pending
                processedAt := none }
            .ok (transaction,
              { s with
                transactions := s.transactions ++ [transaction]
                products := s.products.map (fun p =>
                  if p.id = product.id then
                    { p with
                      inventoryCount := p.inventoryCount - quantity
                      salesCount := p.salesCount + quantity }
                  else p) })

/-- ProductService.processPayment: after the gateway succeeds the transaction
moves to completed and processed_at is stamped; amounts and shares are not
touched. -/
def processPayment (t : Transaction) (now : Nat) : Transaction :=
  { t with status := .completed, processedAt := some now }

/-! ### BlockchainService.VerifyChain and AuthorizationService.VerifyProductByCode

router.go wires AuthorizationService with a non-nil BlockchainService, so
AuthorizationService.VerifyChain always delegates to
BlockchainService.VerifyChain, which re-reads the referenced IP asset and
license rows at call time. -/

def chainAssetApproved (s : DBState) (chain : AuthorizationChain) : Bool :=
  ((findIPAsset s chain.ipAssetId).map
    (fun a => a.verificationStatus == VerificationStatus.approved)).getD false

def chainLicenseApproved (s : DBState) (chain : AuthorizationChain) : Bool :=
  ((findApplication s chain.licenseId).map
    (fun l => l.status == ApplicationStatus.approved)).getD false

def blockchainVerifyChain (s : DBState) (authChainId : Nat) : Except SvcError Bool :=
  match findChainById s authChainId with
  | none => .error .chainNotFound
  | some chain =>
    if chain.blockchainHash = "" then .error .noBlockchainHash
    else if chain.isActive = false then .error .chainNotActive
    else if chainAssetApproved s chain = false then .error .chainAssetNotApproved
    else if chainLicenseApproved s chain = false then .error .chainLicenseNotApproved
    else .ok true

def verifyProductByCode (s : DBState) (code : String) :
    Except SvcError AuthorizationChain :=
  match findChainByCode s code with
  | none => .error .invalidVerificationCode
  | some chain =>
    match blockchainVerifyChain s chain.id with
    | .error _ => .error .chainVerificationFailed
    | .ok valid => if valid then .ok chain else .error .chainVerificationFailed

/-! ### Operation-level semantics

Each public service call is one logical unit of work against the shared store;
a failed call leaves the store untouched (every rejected transition happens
before any write, and the purchase writes are transactional). -/

inductive Op
  | applyOp (applicantId ipAssetId licenseTermsId now : Nat)
  | approveOp (applicationId approverId now : Nat)
  | rejectOp (applicationId rejecterId : Nat) (reason : String)
  | revokeOp (applicationId revokerId : Nat) (reason : String)
  | purchaseOp (productId buyerId : Nat) (quantity : Int)
  | verifyLicenseOp (licenseId now : Nat)
  | verifyByCodeOp (code : String)
  deriving Repr

def runOp (s : DBState) (op : Op) : DBState :=
  match op with
  | .applyOp a i t n =>
    match applyForLicense s a i t n with
    | .ok (_, s') => s'
    | .error _ => s
  | .approveOp a u n =>
    match approveLicense s a u n with
    | .ok (_, s') => s'
    | .error _ => s
  | .rejectOp a u r =>
    match rejectLicense s a u r with
    | .ok (_, s') => s'
    | .error _ => s
  | .revokeOp a u r =>
    match revokeLicense s a u r with
    | .ok (_, s') => s'
    | .error _ => s
  | .purchaseOp p b q =>
    match purchaseProduct s p b q with
    | .ok (_, s') => s'
    | .error _ => s
  | .verifyLicenseOp _ _ => s
  | .verifyByCodeOp _ => s

def runOps (s : DBState) (ops : List Op) : DBState :=
  ops.foldl runOp s

/-! ### Invariants -/

/-- Primary keys are unique in the relational store. -/
def applicationIdsNodup (s : DBState) : Prop :=
  (s.applications.map (fun a => a.id)).Nodup

def productIdsNodup (s : DBState) : Prop :=
  (s.products.map (fun p => p.id)).Nodup

def StateWF (s : DBState) : Prop :=
  applicationIdsNodup s ∧ productIdsNodup s

/-- Number of applications for the (ip_asset, applicant) pair whose status is
pending or approved. -/
def openCount (s : DBState) (ipAssetId applicantId : Nat) : Nat :=
  s.applications.countP (isOpenFor ipAssetId applicantId)

/-- Spec invariant I2. -/
def ExclusiveInv (s : DBState) : Prop :=
  ∀ ipAssetId applicantId, openCount s ipAssetId applicantId ≤ 1

/-- Spec invariant I4. -/
def InventoryInv (s : DBState) : Prop :=
  ∀ p ∈ s.products, 0 ≤ p.inventoryCount

instance (s : DBState) : Decidable (applicationIdsNodup s) := by
  unfold applicationIdsNodup; infer_instance

instance (s : DBState) : Decidable (productIdsNodup s) := by
  unfold productIdsNodup; infer_instance

instance (s : DBState) : Decidable (StateWF s) :=
  inferInstanceAs (Decidable (applicationIdsNodup s ∧ productIdsNodup s))

instance (s : DBState) : Decidable (InventoryInv s) :=
  inferInstanceAs (Decidable (∀ p ∈ s.products, 0 ≤ p.inventoryCount))

/-! ### Concrete states used to exercise the operations -/

def defaultTransaction : Transaction :=
  { id := 0, buyerId := 0, sellerId := 0, productId := none, amount := 0,
    platformFee := 0, revenueShares := calculateRevenueShares 0 0 0 0 0,
    status := .pending, processedAt := none }

/-- Two pending applications (1 by user 7, 2 by user 8) against terms 5 with
max_licenses = 1 on the approved asset 10 owned by creator 9. -/
def raceState : DBState :=
  { users := [{ id := 9, userType := .creator, status := .active },
              { id := 7, userType := .secondaryCreator, status := .active },
              { id := 8, userType := .secondaryCreator, status := .active }]
    ipAssets := [{ id := 10, creatorId := 9, verificationStatus := .approved }]
    licenseTerms := [{ id := 5, ipAssetId := 10, revenueSharePercentage := 20,
                       autoApprove := false, maxLicenses := 1, isActive := true }]
    applications := [
      { id := 1, ipAssetId := 10, applicantId := 7, licenseTermsId := 5,
        status := .pending, approvedAt := none, approvedBy := none,
        rejectionReason := none, expiresAt := none, isActive := true },
      { id := 2, ipAssetId := 10, applicantId := 8, licenseTermsId := 5,
        status := .pending, approvedAt := none, approvedBy := none,
        rejectionReason := none, expiresAt := none, isActive := true }]
    products := []
    transactions := []
    authChains := [] }

/-- The interleaving read/read/write/write of two concurrent ApproveLicense
calls by the asset creator 9: both capacity checks read the same snapshot,
which the Go code permits because the count and the Save are separate
uncoordinated database commands, and then both saves land. -/
def raceInterleaved : DBState :=
  match approveLicenseCheck raceState 1 9, approveLicenseCheck raceState 2 9 with
  | .ok a1, .ok a2 =>
    (approveLicenseWrite (approveLicenseWrite raceState a1 9 100).2 a2 9 101).2
  | _, _ => raceState

/-- Product 20 is active with stock 5, product 21 is a draft; buyer 6 is
suspended, buyer 2 is active. -/
def cbState : DBState :=
  { users := [{ id := 6, userType := .buyer, status := .suspended },
              { id := 2, userType := .buyer, status := .active }]
    ipAssets := []
    licenseTerms := []
    applications := []
    products := [{ id := 20, creatorId := 3, licenseId := 6, price := 10,
                   inventoryCount := 5, status := .active, salesCount := 0 },
                 { id := 21, creatorId := 3, licenseId := 6, price := 10,
                   inventoryCount := 5, status := .draft, salesCount := 0 }]
    transactions := []
    authChains := [] }

/-- The transaction and state produced by buyer 2 purchasing 2 units of
product 20 in cbState. -/
def cbTx : Transaction :=
  ((purchaseProduct cbState 20 2 2).toOption.map Prod.fst).getD defaultTransaction

def cbAfter : DBState :=
  ((purchaseProduct cbState 20 2 2).toOption.map Prod.snd).getD cbState

/-- An authorization chain (code CODE1) whose referenced license 6 has been
revoked while the chain record itself is still active. -/
def chainState : DBState :=
  { users := []
    ipAssets := [{ id := 10, creatorId := 9, verificationStatus := .approved }]
    licenseTerms := []
    applications := [{ id := 6, ipAssetId := 10, applicantId := 7, licenseTermsId := 5,
                       status := .revoked, approvedAt := none, approvedBy := none,
                       rejectionReason := none, expiresAt := none, isActive := false }]
    products := [{ id := 7, creatorId := 3, licenseId := 6, price := 10,
                   inventoryCount := 10, status := .active, salesCount := 0 }]
    transactions := []
    authChains := [{ id := 11, productId := 7, ipAssetId := 10, licenseId := 6,
                     blockchainHash := "h", verificationCode := "CODE1",
                     isActive := true }] }

/-- Terms 5 with auto_approve = true on the approved asset 10 of creator 9;
user 8 is an eligible applicant with no prior application. -/
def autoState : DBState :=
  { users := [{ id := 8, userType := .secondaryCreator, status := .active },
              { id := 9, userType := .creator, status := .active }]
    ipAssets := [{ id := 10, creatorId := 9, verificationStatus := .approved }]
    licenseTerms := [{ id := 5, ipAssetId := 10, revenueSharePercentage := 20,
                       autoApprove := true, maxLicenses := 0, isActive := true }]
    applications := []
    products := []
    transactions := []
    authChains := [] }

def defaultApplication : LicenseApplication :=
  { id := 0, ipAssetId := 0, applicantId := 0, licenseTermsId := 0,
    status := .pending, approvedAt := none, approvedBy := none,
    rejectionReason := none, expiresAt := none, isActive := true }

def autoApp : LicenseApplication :=
  ((applyForLicense autoState 8 10 5 42).toOption.map Prod.fst).getD defaultApplication

def autoAfter : DBState :=
  ((applyForLicense autoState 8 10 5 42).toOption.map Prod.snd).getD autoState

/-- Terms 5 with max_licenses = 1 already at capacity: application 3 by user 7
is approved; user 8 is an eligible applicant with no prior application. -/
def capState : DBState :=
  { users := [{ id := 7, userType := .secondaryCreator, status := .active },
              { id := 8, userType := .secondaryCreator, status := .active },
              { id := 9, userType := .creator, status := .active }]
    ipAssets := [{ id := 10, creatorId := 9, verificationStatus := .approved }]
    licenseTerms := [{ id := 5, ipAssetId := 10, revenueSharePercentage := 20,
                       autoApprove := false, maxLicenses := 1, isActive := true }]
    applications := [{ id := 3, ipAssetId := 10, applicantId := 7, licenseTermsId := 5,
                       status := .approved, approvedAt := some 1, approvedBy := some 9,
                       rejectionReason := none, expiresAt := none, isActive := true }]
    products := []
    transactions := []
    authChains := [] }

/-- Revocation scenarios: application 6 is approved and has an active product
30 under it; 12 is pending; 13 is approved with no products; 14 is revoked.
User 9 owns the asset. -/
def revState : DBState :=
  { users := [{ id := 9, userType := .creator, status := .active },
              { id := 7, userType := .secondaryCreator, status := .active }]
    ipAssets := [{ id := 10, creatorId := 9, verificationStatus := .approved }]
    licenseTerms := [{ id := 5, ipAssetId := 10, revenueSharePercentage := 20,
                       autoApprove := false, maxLicenses := 0, isActive := true }]
    applications := [
      { id := 6, ipAssetId := 10, applicantId := 7, licenseTermsId := 5,
        status := .approved, approvedAt := some 1, approvedBy := some 9,
        rejectionReason := none, expiresAt := none, isActive := true },
      { id := 12, ipAssetId := 10, applicantId := 7, licenseTermsId := 5,
        status := .pending, approvedAt := none, approvedBy := none,
        rejectionReason := none, expiresAt := none, isActive := true },
      { id := 13, ipAssetId := 10, applicantId := 7, licenseTermsId := 5,
        status := .approved, approvedAt := some 2, approvedBy := some 9,
        rejectionReason := none, expiresAt := none, isActive := true },
      { id := 14, ipAssetId := 10, applicantId := 7, licenseTermsId := 5,
        status := .revoked, approvedAt := some 3, approvedBy := some 9,
        rejectionReason := none, expiresAt := none, isActive := false }]
    products := [{ id := 30, creatorId := 7, licenseId := 6, price := 10,
                   inventoryCount := 1, status := .active, salesCount := 0 }]
    transactions := []
    authChains := [] }

def revApp : LicenseApplication :=
  ((revokeLicense revState 13 9 "breach").toOption.map Prod.fst).getD defaultApplication

def revAfter : DBState :=
  ((revokeLicense revState 13 9 "breach").toOption.map Prod.snd).getD revState

/-- License 15 is approved, active and expired (expires_at = 5); license 16 is
revoked and also expired. -/
def expState : DBState :=
  { users := []
    ipAssets := []
    licenseTerms := []
    applications := [
      { id := 15, ipAssetId := 10, applicantId := 7, licenseTermsId := 5,
        status := .approved, approvedAt := some 1, approvedBy := some 9,
        rejectionReason := none, expiresAt := some 5, isActive := true },
      { id := 16, ipAssetId := 10, applicantId := 7, licenseTermsId := 5,
        status := .revoked, approvedAt := none, approvedBy := none,
        rejectionReason := none, expiresAt := some 5, isActive := false }]
    products := []
    transactions := []
    authChains := [] }

/-! ### List helper lemmas -/

theorem le_foldr_max (l : List Nat) : ∀ x ∈ l, x ≤ l.foldr max 0 := by
  induction l with
  | nil => simp
  | cons h t ih =>
    intro x hx
    rcases List.mem_cons.1 hx with rfl | hx
    · exact le_max_left _ _
    · exact le_trans (ih x hx) (le_max_right _ _)

theorem freshApplicationId_not_mem (s : DBState) :
    freshApplicationId s ∉ s.applications.map (fun a => a.id) := by
  intro hmem
  have h := le_foldr_max _ _ hmem
  unfold freshApplicationId at h
  omega

theorem find?_map_of_pres {α : Type} (f : α → α) (p : α → Bool)
    (hp : ∀ x, p (f x) = p x) :
    ∀ (l : List α) (a : α), l.find? p = some a → (l.map f).find? p = some (f a) := by
  intro l
  induction l with
  | nil => intro a h; simp at h
  | cons x xs ih =>
    intro a h
    by_cases hx : p x = true
    · rw [List.find?_cons_of_pos _ hx] at h
      obtain rfl : x = a := by injection h
      rw [List.map_cons, List.find?_cons_of_pos _ (by rw [hp]; exact hx)]
    · rw [List.find?_cons_of_neg _ hx] at h
      rw [List.map_cons, List.find?_cons_of_neg _ (by rw [hp]; exact hx)]
      exact ih a h

theorem find?_append_of_none {α : Type} {p : α → Bool} {l l' : List α}
    (h : l.find? p = none) : (l ++ l').find? p = l'.find? p := by
  rw [List.find?_append, h, Option.none_or]

/-! ### Success characterizations of the operations -/

theorem applyForLicense_ok {s : DBState} {aid iid tid now : Nat}
    {app : LicenseApplication} {s' : DBState}
    (h : applyForLicense s aid iid tid now = .ok (app, s')) :
    s' = { s with applications := s.applications ++ [app] } ∧
    app.id = freshApplicationId s ∧
    app.ipAssetId = iid ∧ app.applicantId = aid ∧ app.licenseTermsId = tid ∧
    (app.status = ApplicationStatus.pending ∨ app.status = ApplicationStatus.approved) ∧
    findExistingApplication s iid aid = none := by
  unfold applyForLicense at h
  cases hu : findUser s aid with
  | none => simp [hu] at h
  | some applicant =>
    simp only [hu] at h
    by_cases hs : applicant.status = UserStatus.active
    case neg => rw [if_pos hs] at h; cases h
    rw [if_neg (fun hne => hne hs)] at h
    by_cases ht : applicant.userType ≠ UserType.secondaryCreator ∧
        applicant.userType ≠ UserType.creator
    case pos => rw [if_pos ht] at h; cases h
    rw [if_neg ht] at h
    cases ha : findIPAsset s iid with
    | none => simp [ha] at h
    | some ipAsset =>
      simp only [ha] at h
      by_cases hv : ipAsset.verificationStatus = VerificationStatus.approved
      case neg => rw [if_pos hv] at h; cases h
      rw [if_neg (fun hne => hne hv)] at h
      by_cases hc : ipAsset.creatorId = aid
      case pos => rw [if_pos hc] at h; cases h
      rw [if_neg hc] at h
      cases hterms : findLicenseTerms s tid iid with
      | none => simp [hterms] at h
      | some terms =>
        simp only [hterms] at h
        cases he : findExistingApplication s iid aid with
        | some existingApp =>
          simp only [he] at h
          by_cases hap : existingApp.status = ApplicationStatus.approved
          · rw [if_pos hap] at h; cases h
          · rw [if_neg hap] at h; cases h
        | none =>
          simp only [he] at h
          by_cases hcap : terms.maxLicenses > 0 ∧
              (approvedCount s tid : Int) ≥ terms.maxLicenses
          case pos => rw [if_pos hcap] at h; cases h
          rw [if_neg hcap] at h
          cases h
          refine ⟨rfl, rfl, rfl, rfl, rfl, ?_, rfl⟩
          cases hb : terms.autoApprove <;> simp [hb]

theorem approveLicenseCheck_ok {s : DBState} {aid uid : Nat} {app : LicenseApplication}
    (h : approveLicenseCheck s aid uid = .ok app) :
    findApplication s aid = some app ∧ app.status = ApplicationStatus.pending := by
  unfold approveLicenseCheck at h
  cases hf : findApplication s aid with
  | none => simp [hf] at h
  | some application =>
    simp only [hf] at h
    by_cases hauth : ¬ isAssetCreator s application.ipAssetId uid ∧ ¬ isAdmin s uid
    case pos => rw [if_pos hauth] at h; cases h
    rw [if_neg hauth] at h
    by_cases hp : application.status = ApplicationStatus.pending
    case neg => rw [if_pos hp] at h; cases h
    rw [if_neg (fun hne => hne hp)] at h
    split at h
    · cases h
    · cases h
      exact ⟨rfl, hp⟩

theorem approveLicense_ok {s : DBState} {aid uid now : Nat}
    {app' : LicenseApplication} {s' : DBState}
    (h : approveLicense s aid uid now = .ok (app', s')) :
    ∃ app, findApplication s aid = some app ∧ app.status = ApplicationStatus.pending ∧
      app' = { app with status := .approved, approvedAt := some now,
                        approvedBy := some uid } ∧
      s' = { s with applications :=
        s.applications.map (fun a => if a.id = app.id then app' else a) } := by
  unfold approveLicense at h
  cases hc : approveLicenseCheck s aid uid with
  | error e => simp [hc] at h
  | ok app =>
    simp only [hc] at h
    obtain ⟨hf, hp⟩ := approveLicenseCheck_ok hc
    simp only [approveLicenseWrite] at h
    cases h
    exact ⟨app, hf, hp, rfl, rfl⟩

theorem rejectLicense_ok {s : DBState} {aid uid : Nat} {reason : String}
    {app' : LicenseApplication} {s' : DBState}
    (h : rejectLicense s aid uid reason = .ok (app', s')) :
    ∃ app, findApplication s aid = some app ∧ app.status = ApplicationStatus.pending ∧
      app' = { app with status := .rejected, rejectionReason := some reason } ∧
      s' = { s with applications :=
        s.applications.map (fun a => if a.id = app.id then app' else a) } := by
  unfold rejectLicense at h
  cases hf : findApplication s aid with
  | none => simp [hf] at h
  | some application =>
    simp only [hf] at h
    by_cases hauth : ¬ isAssetCreator s application.ipAssetId uid ∧ ¬ isAdmin s uid
    case pos => rw [if_pos hauth] at h; cases h
    rw [if_neg hauth] at h
    by_cases hp : application.status = ApplicationStatus.pending
    case neg => rw [if_pos hp] at h; cases h
    rw [if_neg (fun hne => hne hp)] at h
    cases h
    exact ⟨application, rfl, hp, rfl, rfl⟩

theorem revokeLicense_ok {s : DBState} {aid uid : Nat} {reason : String}
    {app' : LicenseApplication} {s' : DBState}
    (h : revokeLicense s aid uid reason = .ok (app', s')) :
    ∃ app, findApplication s aid = some app ∧
      app.status = ApplicationStatus.approved ∧
      activeOrDraftProductCount s aid = 0 ∧
      app' = { app with status := .revoked, isActive := false } ∧
      s' = { s with applications :=
        s.applications.map (fun a => if a.id = app.id then app' else a) } := by
  unfold revokeLicense at h
  cases hf : findApplication s aid with
  | none => simp [hf] at h
  | some application =>
    simp only [hf] at h
    by_cases hauth : ¬ isAssetCreator s application.ipAssetId uid ∧ ¬ isAdmin s uid
    case pos => rw [if_pos hauth] at h; cases h
    rw [if_neg hauth] at h
    by_cases hp : application.status = ApplicationStatus.approved
    case neg => rw [if_pos hp] at h; cases h
    rw [if_neg (fun hne => hne hp)] at h
    by_cases hprod : activeOrDraftProductCount s aid > 0
    case pos => rw [if_pos hprod] at h; cases h
    rw [if_neg hprod] at h
    cases h
    exact ⟨application, rfl, hp, by omega, rfl, rfl⟩

theorem purchaseProduct_ok {s : DBState} {pid bid : Nat} {q : Int}
    {t : Transaction} {s' : DBState}
    (h : purchaseProduct s pid bid q = .ok (t, s')) :
    ∃ product, findProduct s pid = some product ∧
      product.status = ProductStatus.active ∧
      q ≤ product.inventoryCount ∧ 1 ≤ q ∧
      t.status = TransactionStatus.pending ∧
      t.amount = product.price * (q : ℚ) ∧
      t.platformFee = t.amount * (platformFeePercent / 100) ∧
      t.revenueShares.ipCreatorShare + t.revenueShares.secondaryCreatorShare
        = t.amount - t.platformFee ∧
      t.revenueShares.netAmount = t.amount - t.platformFee ∧
      s'.users = s.users ∧ s'.applications = s.applications ∧
      s'.transactions = s.transactions ++ [t] ∧
      s'.products = s.products.map (fun p =>
        if p.id = product.id then
          { p with inventoryCount := p.inventoryCount - q,
                   salesCount := p.salesCount + q }
        else p) := by
  unfold purchaseProduct at h
  by_cases hq : q < 1
  case pos => rw [if_pos hq] at h; cases h
  rw [if_neg hq] at h
  cases hfp : findProduct s pid with
  | none => simp [hfp] at h
  | some product =>
    simp only [hfp] at h
    by_cases hst : product.status = ProductStatus.active
    case neg => rw [if_pos hst] at h; cases h
    rw [if_neg (fun hne => hne hst)] at h
    by_cases hinv : product.inventoryCount < q
    case pos => rw [if_pos hinv] at h; cases h
    rw [if_neg hinv] at h
    cases hb : findUser s bid with
    | none => simp [hb] at h
    | some buyer =>
      simp only [hb] at h
      by_cases hbs : buyer.status = UserStatus.active
      case neg => rw [if_pos hbs] at h; cases h
      rw [if_neg (fun hne => hne hbs)] at h
      cases h
      refine ⟨product, rfl, hst, by omega, by omega, rfl, rfl, rfl, ?_, ?_, rfl, rfl,
        rfl, rfl⟩
      · simp only [calculateRevenueShares]
        ring
      · simp only [calculateRevenueShares]

/-! ### Preservation lemmas -/

theorem map_ids_replace {α : Type} (idf : α → Nat) (f : α → α) (l : List α)
    (hf : ∀ x, idf (f x) = idf x) : (l.map f).map idf = l.map idf := by
  rw [List.map_map]
  exact List.map_congr_left (fun x _ => hf x)

theorem replace_id_pres {app app' : LicenseApplication} (hid : app'.id = app.id) :
    ∀ x : LicenseApplication, (if x.id = app.id then app' else x).id = x.id := by
  intro x
  by_cases hxi : x.id = app.id
  · rw [if_pos hxi, hid, hxi]
  · rw [if_neg hxi]

theorem runOp_preserves_wf (s : DBState) (op : Op) (hwf : StateWF s) :
    StateWF (runOp s op) := by
  cases op with
  | applyOp a i t n =>
    cases hr : applyForLicense s a i t n with
    | error e => simpa [runOp, hr] using hwf
    | ok r =>
      obtain ⟨app, s2⟩ := r
      obtain ⟨hs2, hid, -, -, -, -, -⟩ := applyForLicense_ok hr
      have hrun : runOp s (.applyOp a i t n) = s2 := by simp [runOp, hr]
      rw [hrun, hs2]
      refine ⟨?_, hwf.2⟩
      unfold applicationIdsNodup
      simp only
      rw [List.map_append]
      refine hwf.1.append (by simp) ?_
      intro x hx hx'
      simp only [List.map_cons, List.map_nil, List.mem_singleton] at hx'
      subst hx'
      rw [hid] at hx
      exact freshApplicationId_not_mem s hx
  | approveOp a u n =>
    cases hr : approveLicense s a u n with
    | error e => simpa [runOp, hr] using hwf
    | ok r =>
      obtain ⟨app', s2⟩ := r
      obtain ⟨app, -, -, happ', hs2⟩ := approveLicense_ok hr
      have hrun : runOp s (.approveOp a u n) = s2 := by simp [runOp, hr]
      rw [hrun, hs2]
      refine ⟨?_, hwf.2⟩
      unfold applicationIdsNodup
      simp only
      rw [map_ids_replace _ _ _ (replace_id_pres (by rw [happ']))]
      exact hwf.1
  | rejectOp a u reason =>
    cases hr : rejectLicense s a u reason with
    | error e => simpa [runOp, hr] using hwf
    | ok r =>
      obtain ⟨app', s2⟩ := r
      obtain ⟨app, -, -, happ', hs2⟩ := rejectLicense_ok hr
      have hrun : runOp s (.rejectOp a u reason) = s2 := by simp [runOp, hr]
      rw [hrun, hs2]
      refine ⟨?_, hwf.2⟩
      unfold applicationIdsNodup
      simp only
      rw [map_ids_replace _ _ _ (replace_id_pres (by rw [happ']))]
      exact hwf.1
  | revokeOp a u reason =>
    cases hr : revokeLicense s a u reason with
    | error e => simpa [runOp, hr] using hwf
    | ok r =>
      obtain ⟨app', s2⟩ := r
      obtain ⟨app, -, -, -, happ', hs2⟩ := revokeLicense_ok hr
      have hrun : runOp s (.revokeOp a u reason) = s2 := by simp [runOp, hr]
      rw [hrun, hs2]
      refine ⟨?_, hwf.2⟩
      unfold applicationIdsNodup
      simp only
      rw [map_ids_replace _ _ _ (replace_id_pres (by rw [happ']))]
      exact hwf.1
  | purchaseOp p b q =>
    cases hr : purchaseProduct s p b q with
    | error e => simpa [runOp, hr] using hwf
    | ok r =>
      obtain ⟨t, s2⟩ := r
      obtain ⟨product, -, -, -, -, -, -, -, -, -, -, happs, -, hprods⟩ :=
        purchaseProduct_ok hr
      have hrun : runOp s (.purchaseOp p b q) = s2 := by simp [runOp, hr]
      rw [hrun]
      constructor
      · unfold applicationIdsNodup
        rw [happs]
        exact hwf.1
      · unfold productIdsNodup
        rw [hprods]
        rw [map_ids_replace _ _ _ ?_]
        · exact hwf.2
        · intro x
          by_cases hxi : x.id = product.id
          · rw [if_pos hxi]
          · rw [if_neg hxi]
  | verifyLicenseOp l n => exact hwf
  | verifyByCodeOp c => exact hwf

theorem runOp_preserves_exclusive (s : DBState) (op : Op) (hwf : StateWF s)
    (hex : ExclusiveInv s) : ExclusiveInv (runOp s op) := by
  cases op with
  | applyOp a i t n =>
    cases hr : applyForLicense s a i t n with
    | error e => simpa [runOp, hr] using hex
    | ok r =>
      obtain ⟨app, s2⟩ := r
      obtain ⟨hs2, -, happi, happa, -, -, hexist⟩ := applyForLicense_ok hr
      have hrun : runOp s (.applyOp a i t n) = s2 := by simp [runOp, hr]
      rw [hrun]
      intro x y
      unfold openCount
      rw [show s2.applications = s.applications ++ [app] from by rw [hs2]]
      rw [List.countP_append]
      cases hio : isOpenFor x y app with
      | false =>
        have h1 : List.countP (isOpenFor x y) [app] = 0 := by
          simp [List.countP_cons, hio]
        rw [h1]
        simpa using hex x y
      | true =>
        have hpair : x = i ∧ y = a := by
          unfold isOpenFor at hio
          simp only [Bool.and_eq_true, beq_iff_eq] at hio
          exact ⟨happi ▸ hio.1.1.symm ▸ rfl, happa ▸ hio.1.2.symm ▸ rfl⟩
        rw [hpair.1, hpair.2]
        have hzero : List.countP (isOpenFor i a) s.applications = 0 := by
          rw [List.countP_eq_zero]
          intro z hz
          have hnone := List.find?_eq_none.mp hexist z hz
          simpa using hnone
        rw [hzero]
        have hone : List.countP (isOpenFor i a) [app] ≤ 1 :=
          le_trans (List.countP_le_length _) (by simp)
        omega
  | approveOp a u n =>
    cases hr : approveLicense s a u n with
    | error e => simpa [runOp, hr] using hex
    | ok r =>
      obtain ⟨app', s2⟩ := r
      obtain ⟨app, hf, hp, happ', hs2⟩ := approveLicense_ok hr
      have hrun : runOp s (.approveOp a u n) = s2 := by simp [runOp, hr]
      rw [hrun]
      intro x y
      unfold openCount
      rw [show s2.applications =
            s.applications.map (fun b => if b.id = app.id then app' else b) from
          by rw [hs2]]
      rw [List.countP_map]
      have hmem : app ∈ s.applications := List.mem_of_find?_eq_some hf
      have hcongr : ∀ z ∈ s.applications,
          (isOpenFor x y ∘ fun b => if b.id = app.id then app' else b) z
            ↔ isOpenFor x y z := by
        intro z hz
        by_cases hzi : z.id = app.id
        · have hz_eq : z = app :=
            List.inj_on_of_nodup_map hwf.1 hz hmem hzi
          subst hz_eq
          simp only [Function.comp_apply, if_pos rfl]
          unfold isOpenFor
          rw [happ', hp]
          simp
        · simp only [Function.comp_apply, if_neg hzi]
      rw [List.countP_congr hcongr]
      exact hex x y
  | rejectOp a u reason =>
    cases hr : rejectLicense s a u reason with
    | error e => simpa [runOp, hr] using hex
    | ok r =>
      obtain ⟨app', s2⟩ := r
      obtain ⟨app, hf, hp, happ', hs2⟩ := rejectLicense_ok hr
      have hrun : runOp s (.rejectOp a u reason) = s2 := by simp [runOp, hr]
      rw [hrun]
      intro x y
      unfold openCount
      rw [show s2.applications =
            s.applications.map (fun b => if b.id = app.id then app' else b) from
          by rw [hs2]]
      rw [List.countP_map]
      refine le_trans (List.countP_mono_left ?_) (hex x y)
      intro z hz hpz
      by_cases hzi : z.id = app.id
      · exfalso
        rw [Function.comp_apply, if_pos hzi] at hpz
        unfold isOpenFor at hpz
        rw [happ'] at hpz
        simp at hpz
      · rwa [Function.comp_apply, if_neg hzi] at hpz
  | revokeOp a u reason =>
    cases hr : revokeLicense s a u reason with
    | error e => simpa [runOp, hr] using hex
    | ok r =>
      obtain ⟨app', s2⟩ := r
      obtain ⟨app, hf, hp, -, happ', hs2⟩ := revokeLicense_ok hr
      have hrun : runOp s (.revokeOp a u reason) = s2 := by simp [runOp, hr]
      rw [hrun]
      intro x y
      unfold openCount
      rw [show s2.applications =
            s.applications.map (fun b => if b.id = app.id then app' else b) from
          by rw [hs2]]
      rw [List.countP_map]
      refine le_trans (List.countP_mono_left ?_) (hex x y)
      intro z hz hpz
      by_cases hzi : z.id = app.id
      · exfalso
        rw [Function.comp_apply, if_pos hzi] at hpz
        unfold isOpenFor at hpz
        rw [happ'] at hpz
        simp at hpz
      · rwa [Function.comp_apply, if_neg hzi] at hpz
  | purchaseOp p b q =>
    cases hr : purchaseProduct s p b q with
    | error e => simpa [runOp, hr] using hex
    | ok r =>
      obtain ⟨t, s2⟩ := r
      obtain ⟨product, -, -, -, -, -, -, -, -, -, -, happs, -, -⟩ :=
        purchaseProduct_ok hr
      have hrun : runOp s (.purchaseOp p b q) = s2 := by simp [runOp, hr]
      rw [hrun]
      intro x y
      unfold openCount
      rw [happs]
      exact hex x y
  | verifyLicenseOp l n => exact hex
  | verifyByCodeOp c => exact hex

theorem runOp_preserves_inventory (s : DBState) (op : Op) (hwf : StateWF s)
    (hinv : InventoryInv s) : InventoryInv (runOp s op) := by
  cases op with
  | applyOp a i t n =>
    cases hr : applyForLicense s a i t n with
    | error e => simpa [runOp, hr] using hinv
    | ok r =>
      obtain ⟨app, s2⟩ := r
      obtain ⟨hs2, -, -, -, -, -, -⟩ := applyForLicense_ok hr
      have hrun : runOp s (.applyOp a i t n) = s2 := by simp [runOp, hr]
      rw [hrun]
      intro x hx
      rw [show s2.products = s.products from by rw [hs2]] at hx
      exact hinv x hx
  | approveOp a u n =>
    cases hr : approveLicense s a u n with
    | error e => simpa [runOp, hr] using hinv
    | ok r =>
      obtain ⟨app', s2⟩ := r
      obtain ⟨app, -, -, -, hs2⟩ := approveLicense_ok hr
      have hrun : runOp s (.approveOp a u n) = s2 := by simp [runOp, hr]
      rw [hrun]
      intro x hx
      rw [show s2.products = s.products from by rw [hs2]] at hx
      exact hinv x hx
  | rejectOp a u reason =>
    cases hr : rejectLicense s a u reason with
    | error e => simpa [runOp, hr] using hinv
    | ok r =>
      obtain ⟨app', s2⟩ := r
      obtain ⟨app, -, -, -, hs2⟩ := rejectLicense_ok hr
      have hrun : runOp s (.rejectOp a u reason) = s2 := by simp [runOp, hr]
      rw [hrun]
      intro x hx
      rw [show s2.products = s.products from by rw [hs2]] at hx
      exact hinv x hx
  | revokeOp a u reason =>
    cases hr : revokeLicense s a u reason with
    | error e => simpa [runOp, hr] using hinv
    | ok r =>
      obtain ⟨app', s2⟩ := r
      obtain ⟨app, -, -, -, -, hs2⟩ := revokeLicense_ok hr
      have hrun : runOp s (.revokeOp a u reason) = s2 := by simp [runOp, hr]
      rw [hrun]
      intro x hx
      rw [show s2.products = s.products from by rw [hs2]] at hx
      exact hinv x hx
  | purchaseOp p b q =>
    cases hr : purchaseProduct s p b q with
    | error e => simpa [runOp, hr] using hinv
    | ok r =>
      obtain ⟨t, s2⟩ := r
      obtain ⟨product, hfp, -, hq, -, -, -, -, -, -, -, -, -, hprods⟩ :=
        purchaseProduct_ok hr
      have hrun : runOp s (.purchaseOp p b q) = s2 := by simp [runOp, hr]
      rw [hrun]
      intro x hx
      rw [hprods] at hx
      obtain ⟨z, hz, hfz⟩ := List.mem_map.mp hx
      have hmem : product ∈ s.products := List.mem_of_find?_eq_some hfp
      by_cases hzi : z.id = product.id
      · have hz_eq : z = product :=
          List.inj_on_of_nodup_map hwf.2 hz hmem hzi
        subst hz_eq
        rw [if_pos rfl] at hfz
        subst hfz
        simp only
        omega
      · rw [if_neg hzi] at hfz
        subst hfz
        exact hinv z hz
  | verifyLicenseOp l n => exact hinv
  | verifyByCodeOp c => exact hinv

theorem runOps_preserves (s : DBState) (ops : List Op) (hwf : StateWF s) :
    StateWF (runOps s ops) ∧
    (ExclusiveInv s → ExclusiveInv (runOps s ops)) ∧
    (InventoryInv s → InventoryInv (runOps s ops)) := by
  induction ops generalizing s with
  | nil => exact ⟨hwf, id, id⟩
  | cons op ops ih =>
    have hwf' := runOp_preserves_wf s op hwf
    obtain ⟨h1, h2, h3⟩ := ih (runOp s op) hwf'
    refine ⟨h1, fun he => h2 (runOp_preserves_exclusive s op hwf he),
      fun hi => h3 (runOp_preserves_inventory s op hwf hi)⟩

/-- An Except value known to be ok equals the ok of its projected components;
used to name the components of a concrete successful call. -/
theorem except_ok_split {α β : Type} {e : Except SvcError (α × β)}
    (d1 : α) (d2 : β) (h : e.isOk = true) :
    e = .ok ((e.toOption.map Prod.fst).getD d1, (e.toOption.map Prod.snd).getD d2) := by
  cases e with
  | error err => exact Bool.noConfusion h
  | ok p => cases p; rfl

/-! ### Claim theorems -/

/-- Claim C2: the capacity check and the status write of ApproveLicense are
separate unguarded database commands, so the read/read/write/write
interleaving of two concurrent approvals against terms with max_licenses = 1
passes both checks and ends with 2 approved applications, exceeding the cap;
sequentially the second approval is rejected with the capacity error. -/
theorem approve_capacity_check_not_atomic :
    (findLicenseTermsById raceState 5).map (fun t => t.maxLicenses) = some 1 ∧
    (approveLicenseCheck raceState 1 9).isOk = true ∧
    (approveLicenseCheck raceState 2 9).isOk = true ∧
    approvedCount raceInterleaved 5 = 2 ∧
    approveLicense (runOp raceState (Op.approveOp 1 9 100)) 2 9 101 =
      .error .licenseLimitReached :=
  ⟨rfl, rfl, rfl, rfl, rfl⟩

/-- Claim C3 (amended): a purchase is rejected, leaving the store unchanged,
when the product is not active, when its inventory is below the requested
quantity, and also when the buyer is absent or not active; when it succeeds,
the same atomic unit decrements the inventory by exactly the requested
quantity and appends the pending Transaction, so the inventory of every
product stays non-negative after any sequence of operations. -/
theorem purchase_checks_and_inventory (s : DBState) (ops : List Op)
    (productId buyerId : Nat) (quantity : Int) (product : Product)
    (hfp : findProduct s productId = some product)
    (hq : 1 ≤ quantity) :
    (product.status ≠ ProductStatus.active →
      purchaseProduct s productId buyerId quantity = .error .productNotAvailable ∧
      runOp s (.purchaseOp productId buyerId quantity) = s) ∧
    (product.status = ProductStatus.active → product.inventoryCount < quantity →
      purchaseProduct s productId buyerId quantity = .error .insufficientInventory ∧
      runOp s (.purchaseOp productId buyerId quantity) = s) ∧
    (∀ buyer, product.status = ProductStatus.active →
      quantity ≤ product.inventoryCount →
      findUser s buyerId = some buyer → buyer.status ≠ UserStatus.active →
      purchaseProduct s productId buyerId quantity = .error .buyerNotActive ∧
      runOp s (.purchaseOp productId buyerId quantity) = s) ∧
    (∀ t s', purchaseProduct s productId buyerId quantity = .ok (t, s') →
      t.status = TransactionStatus.pending ∧
      s'.transactions = s.transactions ++ [t] ∧
      findProduct s' productId = some
        { product with inventoryCount := product.inventoryCount - quantity,
                       salesCount := product.salesCount + quantity } ∧
      0 ≤ product.inventoryCount - quantity) ∧
    (StateWF s → InventoryInv s → InventoryInv (runOps s ops)) := by
  refine ⟨?_, ?_, ?_, ?_, ?_⟩
  · intro hns
    have he : purchaseProduct s productId buyerId quantity =
        .error .productNotAvailable := by
      unfold purchaseProduct
      rw [if_neg (not_lt.mpr hq)]
      simp only [hfp]
      rw [if_pos hns]
    exact ⟨he, by simp [runOp, he]⟩
  · intro hst hlt
    have he : purchaseProduct s productId buyerId quantity =
        .error .insufficientInventory := by
      unfold purchaseProduct
      rw [if_neg (not_lt.mpr hq)]
      simp only [hfp]
      rw [if_neg (fun hne => hne hst), if_pos hlt]
    exact ⟨he, by simp [runOp, he]⟩
  · intro buyer hst hle hbu hbs
    have he : purchaseProduct s productId buyerId quantity =
        .error .buyerNotActive := by
      unfold purchaseProduct
      rw [if_neg (not_lt.mpr hq)]
      simp only [hfp]
      rw [if_neg (fun hne => hne hst), if_neg (not_lt.mpr hle)]
      simp only [hbu]
      rw [if_pos hbs]
    exact ⟨he, by simp [runOp, he]⟩
  · intro t s' h
    obtain ⟨product0, hfp0, -, hle0, -, hpend, -, -, -, -, -, -, htrans, hprods⟩ :=
      purchaseProduct_ok h
    have hpp : product = product0 := by
      have hx := hfp.symm.trans hfp0
      injection hx
    subst hpp
    refine ⟨hpend, htrans, ?_, by omega⟩
    show s'.products.find? (fun p => p.id == productId) = _
    rw [hprods]
    have hpres : ∀ x : Product,
        ((if x.id = product.id then
            { x with inventoryCount := x.inventoryCount - quantity,
                     salesCount := x.salesCount + quantity }
          else x).id == productId)
          = (x.id == productId) := by
      intro x
      by_cases hxi : x.id = product.id
      · rw [if_pos hxi]
      · rw [if_neg hxi]
    have hfp2 : s.products.find? (fun p => p.id == productId) = some product := hfp
    have hres := find?_map_of_pres
      (fun x => if x.id = product.id then
        { x with inventoryCount := x.inventoryCount - quantity,
                 salesCount := x.salesCount + quantity }
        else x)
      (fun p => p.id == productId) hpres s.products product hfp2
    rw [hres]
    simp
  · intro hwf hinv
    exact (runOps_preserves s ops hwf).2.2 hinv

/-- Claim C3 counterexample: product 20 is active with stock 5 and the
requested quantity is 1, yet the purchase by the suspended buyer 6 fails and
decrements nothing, so a purchase can fail even when the product is active
and the inventory suffices. -/
theorem purchase_claim_counterexample :
    (findProduct cbState 20).map (fun p => (p.status, p.inventoryCount))
      = some (ProductStatus.active, 5) ∧
    purchaseProduct cbState 20 6 1 = .error .buyerNotActive ∧
    SvcError.buyerNotActive ≠ SvcError.productNotAvailable ∧
    SvcError.buyerNotActive ≠ SvcError.insufficientInventory ∧
    runOp cbState (.purchaseOp 20 6 1) = cbState :=
  ⟨rfl, rfl, by decide, by decide, rfl⟩

theorem purchase_checks_and_inventory_witness :
    (purchaseProduct cbState 21 2 1 = .error .productNotAvailable ∧
      runOp cbState (.purchaseOp 21 2 1) = cbState) ∧
    (purchaseProduct cbState 20 2 9 = .error .insufficientInventory ∧
      runOp cbState (.purchaseOp 20 2 9) = cbState) ∧
    (purchaseProduct cbState 20 6 1 = .error .buyerNotActive ∧
      runOp cbState (.purchaseOp 20 6 1) = cbState) ∧
    (cbTx.status = TransactionStatus.pending ∧
      cbAfter.transactions = cbState.transactions ++ [cbTx] ∧
      findProduct cbAfter 20 = some
        { id := 20, creatorId := 3, licenseId := 6, price := 10,
          inventoryCount := 3, status := ProductStatus.active, salesCount := 2 } ∧
      (0 : Int) ≤ 3) ∧
    InventoryInv (runOps cbState [.purchaseOp 20 2 2]) := by
  refine ⟨(purchase_checks_and_inventory cbState [] 21 2 1 _ rfl (by decide)).1
      (by decide),
    (purchase_checks_and_inventory cbState [] 20 2 9 _ rfl (by decide)).2.1
      rfl (by decide),
    (purchase_checks_and_inventory cbState [] 20 6 1 _ rfl (by decide)).2.2.1
      _ rfl (by decide) rfl (by decide),
    ?_,
    (purchase_checks_and_inventory cbState [.purchaseOp 20 2 2] 20 2 2 _ rfl
      (by decide)).2.2.2.2 ⟨by decide, by decide⟩ (by decide)⟩
  exact (purchase_checks_and_inventory cbState [] 20 2 2 _ rfl (by decide)).2.2.2.1
    cbTx cbAfter (except_ok_split defaultTransaction cbState rfl)

/-- Claim C4: looking up a chain by its verification code re-validates the
referenced license and IP asset live, so whenever the license is not
approved or the asset is not approved at call time — even though the chain
record itself is still flagged active, which the active-only code lookup
requires — VerifyProductByCode fails with the chain-verification error. -/
theorem verifyByCode_requires_live_approval (s : DBState) (code : String)
    (chain : AuthorizationChain)
    (hfind : findChainByCode s code = some chain)
    (hbyid : findChainById s chain.id = some chain)
    (hbad : chainLicenseApproved s chain = false ∨ chainAssetApproved s chain = false) :
    verifyProductByCode s code = .error .chainVerificationFailed := by
  unfold verifyProductByCode
  simp only [hfind]
  cases hb : blockchainVerifyChain s chain.id with
  | error e => rfl
  | ok valid =>
    cases valid with
    | false => rfl
    | true =>
      exfalso
      unfold blockchainVerifyChain at hb
      simp only [hbyid] at hb
      by_cases h1 : chain.blockchainHash = ""
      case pos => rw [if_pos h1] at hb; cases hb
      rw [if_neg h1] at hb
      by_cases h2 : chain.isActive = false
      case pos => rw [if_pos h2] at hb; cases hb
      rw [if_neg h2] at hb
      by_cases h3 : chainAssetApproved s chain = false
      case pos => rw [if_pos h3] at hb; cases hb
      rw [if_neg h3] at hb
      by_cases h4 : chainLicenseApproved s chain = false
      case pos => rw [if_pos h4] at hb; cases hb
      rcases hbad with h | h
      · exact h4 h
      · exact h3 h

theorem verifyByCode_requires_live_approval_witness :
    verifyProductByCode chainState "CODE1" = .error .chainVerificationFailed :=
  verifyByCode_requires_live_approval chainState "CODE1"
    { id := 11, productId := 7, ipAssetId := 10, licenseId := 6,
      blockchainHash := "h", verificationCode := "CODE1", isActive := true }
    rfl rfl (Or.inl rfl)

/-- Claim C5: when the looked-up terms have auto_approve set and apply
succeeds, the returned application is already approved with approved_at
stamped and the asset creator recorded as the system-attributed approver; the
new row is inserted in that same single step, a read of the new state returns
the approved row, and the number of pending applications is unchanged, so no
pending intermediate is ever observable. -/
theorem auto_approve_immediate (s : DBState)
    (applicantId ipAssetId licenseTermsId now : Nat)
    (ipAsset : IPAsset) (terms : LicenseTerms)
    (app : LicenseApplication) (s' : DBState)
    (hasset : findIPAsset s ipAssetId = some ipAsset)
    (hterms : findLicenseTerms s licenseTermsId ipAssetId = some terms)
    (hauto : terms.autoApprove = true)
    (h : applyForLicense s applicantId ipAssetId licenseTermsId now = .ok (app, s')) :
    app.status = ApplicationStatus.approved ∧
    app.approvedAt = some now ∧
    app.approvedBy = some ipAsset.creatorId ∧
    s'.applications = s.applications ++ [app] ∧
    findApplication s' app.id = some app ∧
    s'.applications.countP (fun b => b.status == ApplicationStatus.pending)
      = s.applications.countP (fun b => b.status == ApplicationStatus.pending) := by
  have hchar := applyForLicense_ok h
  obtain ⟨hs', hid, -, -, -, -, -⟩ := hchar
  unfold applyForLicense at h
  cases hu : findUser s applicantId with
  | none => simp [hu] at h
  | some applicant =>
    simp only [hu] at h
    by_cases hs : applicant.status = UserStatus.active
    case neg => rw [if_pos hs] at h; cases h
    rw [if_neg (fun hne => hne hs)] at h
    by_cases ht : applicant.userType ≠ UserType.secondaryCreator ∧
        applicant.userType ≠ UserType.creator
    case pos => rw [if_pos ht] at h; cases h
    rw [if_neg ht] at h
    simp only [hasset] at h
    by_cases hv : ipAsset.verificationStatus = VerificationStatus.approved
    case neg => rw [if_pos hv] at h; cases h
    rw [if_neg (fun hne => hne hv)] at h
    by_cases hc : ipAsset.creatorId = applicantId
    case pos => rw [if_pos hc] at h; cases h
    rw [if_neg hc] at h
    simp only [hterms] at h
    cases he : findExistingApplication s ipAssetId applicantId with
    | some existingApp =>
      simp only [he] at h
      by_cases hap : existingApp.status = ApplicationStatus.approved
      · rw [if_pos hap] at h; cases h
      · rw [if_neg hap] at h; cases h
    | none =>
      simp only [he] at h
      by_cases hcap : terms.maxLicenses > 0 ∧
          (approvedCount s licenseTermsId : Int) ≥ terms.maxLicenses
      case pos => rw [if_pos hcap] at h; cases h
      rw [if_neg hcap] at h
      cases h
      refine ⟨by simp [hauto], by simp [hauto], by simp [hauto], rfl, ?_, ?_⟩
      · -- a read of the new state returns the inserted approved row
        have hnone : s.applications.find?
            (fun a => a.id == freshApplicationId s) = none := by
          rw [List.find?_eq_none]
          intro x hx
          simp only [beq_iff_eq]
          intro heq
          exact freshApplicationId_not_mem s (heq ▸ List.mem_map_of_mem _ hx)
        unfold findApplication
        dsimp only
        rw [find?_append_of_none hnone]
        simp
      · -- the pending count is unchanged
        dsimp only
        rw [List.countP_append]
        simp [List.countP_cons, hauto]

theorem auto_approve_immediate_witness :
    autoApp.status = ApplicationStatus.approved ∧
    autoApp.approvedAt = some 42 ∧
    autoApp.approvedBy = some 9 ∧
    autoAfter.applications = autoState.applications ++ [autoApp] ∧
    findApplication autoAfter autoApp.id = some autoApp ∧
    autoAfter.applications.countP (fun b => b.status == ApplicationStatus.pending)
      = autoState.applications.countP (fun b => b.status == ApplicationStatus.pending) :=
  auto_approve_immediate autoState 8 10 5 42
    { id := 10, creatorId := 9, verificationStatus := .approved }
    { id := 5, ipAssetId := 10, revenueSharePercentage := 20, autoApprove := true,
      maxLicenses := 0, isActive := true }
    autoApp autoAfter rfl rfl rfl
    (except_ok_split defaultApplication autoState rfl)

/-- Claim C6: for every (ip_asset, applicant) pair at most one application in
{pending, approved} exists after any sequence of operations, and an apply
call that reaches the duplicate check while such an application exists fails
with the matching duplicate error. -/
theorem application_exclusivity (s : DBState) (ops : List Op)
    (hwf : StateWF s) (hinv : ExclusiveInv s) :
    ExclusiveInv (runOps s ops) ∧
    (∀ applicantId ipAssetId licenseTermsId now applicant ipAsset existingApp,
      findUser s applicantId = some applicant →
      applicant.status = UserStatus.active →
      (applicant.userType = UserType.secondaryCreator ∨
        applicant.userType = UserType.creator) →
      findIPAsset s ipAssetId = some ipAsset →
      ipAsset.verificationStatus = VerificationStatus.approved →
      ipAsset.creatorId ≠ applicantId →
      (findLicenseTerms s licenseTermsId ipAssetId).isSome = true →
      findExistingApplication s ipAssetId applicantId = some existingApp →
      applyForLicense s applicantId ipAssetId licenseTermsId now =
        .error (if existingApp.status = ApplicationStatus.approved then
          SvcError.alreadyApprovedForAsset else SvcError.alreadyPendingForAsset)) := by
  refine ⟨(runOps_preserves s ops hwf).2.1 hinv, ?_⟩
  intro aid iid tid now applicant ipAsset existingApp hu hact hrole hasset hv hown
    hterms hex
  obtain ⟨terms, ht⟩ := Option.isSome_iff_exists.mp hterms
  unfold applyForLicense
  simp only [hu]
  rw [if_neg (fun hne => hne hact)]
  rw [if_neg (fun hcon => hrole.elim (fun h1 => hcon.1 h1) (fun h2 => hcon.2 h2))]
  simp only [hasset]
  rw [if_neg (fun hne => hne hv)]
  rw [if_neg hown]
  simp only [ht, hex]
  by_cases hap : existingApp.status = ApplicationStatus.approved
  · rw [if_pos hap, if_pos hap]
  · rw [if_neg hap, if_neg hap]

theorem application_exclusivity_witness :
    ExclusiveInv (runOps capState [.applyOp 8 10 5 0, .approveOp 3 9 1]) ∧
    applyForLicense capState 7 10 5 0 = .error .alreadyApprovedForAsset := by
  have hmain := application_exclusivity capState [.applyOp 8 10 5 0, .approveOp 3 9 1]
    ⟨by decide, by decide⟩
    (fun i a => le_trans (List.countP_le_length _) (by decide))
  refine ⟨hmain.1, ?_⟩
  have hdup := hmain.2 7 10 5 0
    { id := 7, userType := .secondaryCreator, status := .active }
    { id := 10, creatorId := 9, verificationStatus := .approved }
    { id := 3, ipAssetId := 10, applicantId := 7, licenseTermsId := 5,
      status := .approved, approvedAt := some 1, approvedBy := some 9,
      rejectionReason := none, expiresAt := none, isActive := true }
    rfl rfl (Or.inl rfl) rfl rfl (by decide) rfl rfl
  exact hdup

/-- Claim C7: revoke succeeds only on an approved application with no
referencing product in {active, draft}; a pre-existing active or draft
product makes it fail with the conflict error and change nothing; success
sets the stored status to revoked with is_active false and touches no other
table; and a revoked application is terminal for approve, reject and
revoke. -/
theorem revoke_preconditions_and_effects (s : DBState)
    (applicationId revokerId : Nat) (reason : String) (app : LicenseApplication)
    (hf : findApplication s applicationId = some app)
    (hauth : isAssetCreator s app.ipAssetId revokerId = true ∨
      isAdmin s revokerId = true) :
    (app.status ≠ ApplicationStatus.approved →
      revokeLicense s applicationId revokerId reason = .error .onlyApprovedRevocable ∧
      runOp s (.revokeOp applicationId revokerId reason) = s) ∧
    (app.status = ApplicationStatus.approved →
      0 < activeOrDraftProductCount s applicationId →
      revokeLicense s applicationId revokerId reason = .error .activeProductsExist ∧
      runOp s (.revokeOp applicationId revokerId reason) = s) ∧
    (∀ app' s', revokeLicense s applicationId revokerId reason = .ok (app', s') →
      app.status = ApplicationStatus.approved ∧
      activeOrDraftProductCount s applicationId = 0 ∧
      app'.status = ApplicationStatus.revoked ∧ app'.isActive = false ∧
      s'.applications = s.applications.map
        (fun b => if b.id = app.id then app' else b) ∧
      s'.products = s.products ∧ s'.transactions = s.transactions) ∧
    (app.status = ApplicationStatus.revoked →
      ∀ uid n r2, (approveLicense s applicationId uid n).isOk = false ∧
        (rejectLicense s applicationId uid r2).isOk = false ∧
        (revokeLicense s applicationId uid r2).isOk = false) := by
  have hauthne : ¬ (¬ isAssetCreator s app.ipAssetId revokerId ∧
      ¬ isAdmin s revokerId) := fun hcon => hauth.elim hcon.1 hcon.2
  refine ⟨?_, ?_, ?_, ?_⟩
  · intro hne
    have he : revokeLicense s applicationId revokerId reason =
        .error .onlyApprovedRevocable := by
      unfold revokeLicense
      simp only [hf]
      rw [if_neg hauthne, if_pos hne]
    exact ⟨he, by simp [runOp, he]⟩
  · intro hst hcount
    have he : revokeLicense s applicationId revokerId reason =
        .error .activeProductsExist := by
      unfold revokeLicense
      simp only [hf]
      rw [if_neg hauthne, if_neg (fun hx => hx hst), if_pos hcount]
    exact ⟨he, by simp [runOp, he]⟩
  · intro app' s' h
    obtain ⟨app0, hf0, hst0, hcnt0, happ', hs'⟩ := revokeLicense_ok h
    have hpp : app = app0 := by
      have hx := hf.symm.trans hf0
      injection hx
    subst hpp
    refine ⟨hst0, hcnt0, by rw [happ'], by rw [happ'], by rw [hs'], by rw [hs'],
      by rw [hs']⟩
  · intro hrev uid n r2
    refine ⟨?_, ?_, ?_⟩
    · cases hc : approveLicenseCheck s applicationId uid with
      | error e =>
        unfold approveLicense
        simp only [hc]
        rfl
      | ok app1 =>
        obtain ⟨hf1, hp1⟩ := approveLicenseCheck_ok hc
        have hx := hf.symm.trans hf1
        injection hx with he1
        rw [← he1, hrev] at hp1
        cases hp1
    · have he : rejectLicense s applicationId uid r2 =
          .error .unauthorizedRejecter ∨
          rejectLicense s applicationId uid r2 = .error .alreadyProcessed := by
        unfold rejectLicense
        simp only [hf]
        by_cases hcond : ¬ isAssetCreator s app.ipAssetId uid ∧ ¬ isAdmin s uid
        · rw [if_pos hcond]
          exact Or.inl rfl
        · rw [if_neg hcond, if_pos (by simp [hrev])]
          exact Or.inr rfl
      rcases he with he | he <;> rw [he] <;> rfl
    · have he : revokeLicense s applicationId uid r2 =
          .error .unauthorizedRevoker ∨
          revokeLicense s applicationId uid r2 = .error .onlyApprovedRevocable := by
        unfold revokeLicense
        simp only [hf]
        by_cases hcond : ¬ isAssetCreator s app.ipAssetId uid ∧ ¬ isAdmin s uid
        · rw [if_pos hcond]
          exact Or.inl rfl
        · rw [if_neg hcond, if_pos (by simp [hrev])]
          exact Or.inr rfl
      rcases he with he | he <;> rw [he] <;> rfl

theorem revoke_preconditions_and_effects_witness :
    (revokeLicense revState 12 9 "r" = .error .onlyApprovedRevocable ∧
      runOp revState (.revokeOp 12 9 "r") = revState) ∧
    (revokeLicense revState 6 9 "r" = .error .activeProductsExist ∧
      runOp revState (.revokeOp 6 9 "r") = revState) ∧
    (revApp.status = ApplicationStatus.revoked ∧ revApp.isActive = false ∧
      revAfter.products = revState.products ∧
      revAfter.transactions = revState.transactions) ∧
    ((approveLicense revState 14 9 0).isOk = false ∧
      (rejectLicense revState 14 9 "r").isOk = false ∧
      (revokeLicense revState 14 9 "r").isOk = false) := by
  refine ⟨?_, ?_, ?_, ?_⟩
  · exact (revoke_preconditions_and_effects revState 12 9 "r"
      { id := 12, ipAssetId := 10, applicantId := 7, licenseTermsId := 5,
        status := .pending, approvedAt := none, approvedBy := none,
        rejectionReason := none, expiresAt := none, isActive := true }
      rfl (Or.inl rfl)).1 (by decide)
  · exact (revoke_preconditions_and_effects revState 6 9 "r"
      { id := 6, ipAssetId := 10, applicantId := 7, licenseTermsId := 5,
        status := .approved, approvedAt := some 1, approvedBy := some 9,
        rejectionReason := none, expiresAt := none, isActive := true }
      rfl (Or.inl rfl)).2.1 rfl (by decide)
  · obtain ⟨-, -, h3, h4, -, h6, h7⟩ :=
      (revoke_preconditions_and_effects revState 13 9 "breach"
        { id := 13, ipAssetId := 10, applicantId := 7, licenseTermsId := 5,
          status := .approved, approvedAt := some 2, approvedBy := some 9,
          rejectionReason := none, expiresAt := none, isActive := true }
        rfl (Or.inl rfl)).2.2.1 revApp revAfter
        (except_ok_split defaultApplication revState rfl)
    exact ⟨h3, h4, h6, h7⟩
  · exact (revoke_preconditions_and_effects revState 14 9 "r"
      { id := 14, ipAssetId := 10, applicantId := 7, licenseTermsId := 5,
        status := .revoked, approvedAt := some 3, approvedBy := some 9,
        rejectionReason := none, expiresAt := none, isActive := false }
      rfl (Or.inl rfl)).2.2.2 rfl 9 0 "r"

/-- Claim C9 counterexample: license 16 is expired (expires_at = 5 < now = 10)
but also revoked, and VerifyLicense fails with the not-active error rather
than the expiry error, so an expired license does not always fail with an
expiry error. -/
theorem verify_expired_error_kind_counterexample :
    (findApplication expState 16).map (fun l => l.expiresAt) = some (some 5) ∧
    5 < 10 ∧
    verifyLicense expState 16 10 = .error .licenseNotActive ∧
    SvcError.licenseNotActive ≠ SvcError.licenseExpired :=
  ⟨rfl, by decide, rfl, by decide⟩

/-- Claim C9 (amended): VerifyLicense always fails on a license whose
expires_at is set and earlier than now — with the expiry error exactly when
the license is approved and active, and with the not-active error otherwise —
and the call never mutates the store. -/
theorem verify_expired_license_fails (s : DBState) (licenseId now tExp : Nat)
    (lic : LicenseApplication)
    (hf : findApplication s licenseId = some lic)
    (hexp : lic.expiresAt = some tExp) (ht : tExp < now) :
    (verifyLicense s licenseId now).isOk = false ∧
    (lic.status = ApplicationStatus.approved → lic.isActive = true →
      verifyLicense s licenseId now = .error .licenseExpired) ∧
    runOp s (.verifyLicenseOp licenseId now) = s := by
  unfold verifyLicense
  simp only [hf]
  by_cases hcond : lic.status ≠ ApplicationStatus.approved ∨ lic.isActive = false
  · rw [if_pos hcond]
    refine ⟨rfl, ?_, rfl⟩
    intro hst hact
    exfalso
    rcases hcond with hx | hx
    · exact hx hst
    · rw [hact] at hx
      cases hx
  · rw [if_neg hcond]
    simp only [hexp]
    rw [if_pos ht]
    exact ⟨rfl, fun _ _ => rfl, rfl⟩

theorem verify_expired_license_fails_witness :
    (verifyLicense expState 15 10).isOk = false ∧
    verifyLicense expState 15 10 = .error .licenseExpired ∧
    runOp expState (.verifyLicenseOp 15 10) = expState := by
  have h := verify_expired_license_fails expState 15 10 5
    { id := 15, ipAssetId := 10, applicantId := 7, licenseTermsId := 5,
      status := .approved, approvedAt := some 1, approvedBy := some 9,
      rejectionReason := none, expiresAt := some 5, isActive := true }
    rfl rfl (by decide)
  exact ⟨h.1, h.2.1 rfl rfl, h.2.2⟩

/-- Claim C10: an apply call that passes the applicant, asset, terms and
duplicate checks fails with the capacity error whenever the terms have
max_licenses > 0 and the count of approved applications for the terms is
already at or above max_licenses, and the store is unchanged: the new
application is refused at submission time. -/
theorem apply_enforces_capacity (s : DBState)
    (applicantId ipAssetId licenseTermsId now : Nat)
    (applicant : User) (ipAsset : IPAsset) (terms : LicenseTerms)
    (hu : findUser s applicantId = some applicant)
    (hact : applicant.status = UserStatus.active)
    (hrole : applicant.userType = UserType.secondaryCreator ∨
      applicant.userType = UserType.creator)
    (hasset : findIPAsset s ipAssetId = some ipAsset)
    (hv : ipAsset.verificationStatus = VerificationStatus.approved)
    (hown : ipAsset.creatorId ≠ applicantId)
    (hterms : findLicenseTerms s licenseTermsId ipAssetId = some terms)
    (hnone : findExistingApplication s ipAssetId applicantId = none)
    (hmax : 0 < terms.maxLicenses)
    (hcount : terms.maxLicenses ≤ (approvedCount s licenseTermsId : Int)) :
    applyForLicense s applicantId ipAssetId licenseTermsId now =
      .error .licenseLimitReachedForTerms ∧
    runOp s (.applyOp applicantId ipAssetId licenseTermsId now) = s := by
  have he : applyForLicense s applicantId ipAssetId licenseTermsId now =
      .error .licenseLimitReachedForTerms := by
    unfold applyForLicense
    simp only [hu]
    rw [if_neg (fun hne => hne hact)]
    rw [if_neg (fun hcon => hrole.elim (fun h1 => hcon.1 h1) (fun h2 => hcon.2 h2))]
    simp only [hasset]
    rw [if_neg (fun hne => hne hv)]
    rw [if_neg hown]
    simp only [hterms, hnone]
    rw [if_pos ⟨hmax, hcount⟩]
  exact ⟨he, by simp [runOp, he]⟩

theorem apply_enforces_capacity_witness :
    applyForLicense capState 8 10 5 0 = .error .licenseLimitReachedForTerms ∧
    runOp capState (.applyOp 8 10 5 0) = capState :=
  apply_enforces_capacity capState 8 10 5 0
    { id := 8, userType := .secondaryCreator, status := .active }
    { id := 10, creatorId := 9, verificationStatus := .approved }
    { id := 5, ipAssetId := 10, revenueSharePercentage := 20,
      autoApprove := false, maxLicenses := 1, isActive := true }
    rfl rfl (Or.inl rfl) rfl rfl (by decide) rfl rfl (by decide) (by decide)

end IMI
